import Mathlib

/-!
Verification of the NutriNova dashboard (`nutrinova_app.py`).

The Python source is shallowly embedded: numbers are modelled as exact
rationals (`ℚ`), Python dicts as association lists with Python insertion
semantics (assignment to an existing key overwrites in place, a new key
is appended), and external HTTP / completion calls as explicit inputs
describing the response.  Fallible Python code (code that may raise) is
embedded with `Except String`.
-/

namespace NutriNova

/-- The static MET table `EXERCISE_MET` from the source, as an association
list in the source's declaration order. -/
def EXERCISE_MET : List (String × ℚ) :=
  [("Running (6 mph)", 98/10),
   ("Cycling (moderate)", 75/10),
   ("Walking (brisk)", 38/10),
   ("Swimming", 6),
   ("Yoga", 25/10),
   ("Weightlifting", 6)]

/-- Python dict lookup `EXERCISE_MET[exercise]` together with the
membership test `exercise in EXERCISE_MET`: `none` when the key is
absent. -/
def metLookup (e : String) : Option ℚ :=
  (EXERCISE_MET.find? (fun p => p.1 == e)).map Prod.snd

/-- Round a rational to the nearest integer, ties to the even integer
(banker's rounding, the deterministic rounding of Python's `round`). -/
def pyRoundInt (x : ℚ) : ℤ :=
  if x - (⌊x⌋ : ℚ) < 1/2 then ⌊x⌋
  else if (1:ℚ)/2 < x - (⌊x⌋ : ℚ) then ⌊x⌋ + 1
  else if ⌊x⌋ % 2 = 0 then ⌊x⌋ else ⌊x⌋ + 1

/-- Python's `round(x, 2)`: scale by 100, round to the nearest integer
with ties going to the even integer, scale back. -/
def pyRound2 (q : ℚ) : ℚ :=
  (pyRoundInt (q * 100) : ℚ) / 100

/-- `calculate_calories_burned` over an explicit table parameter (the
Python function reads the module-level `EXERCISE_MET`). -/
def calcBurnedTbl (tbl : List (String × ℚ)) (weight_kg : ℚ) (exercise : String)
    (duration_min : ℚ) : ℚ :=
  match (tbl.find? (fun p => p.1 == exercise)).map Prod.snd with
  | none => 0
  | some met => pyRound2 (met * (7/2) * weight_kg / 200 * duration_min)

/-- `calculate_calories_burned(weight_kg, exercise, duration_min)` from
the source: `0` when the exercise is not a key of `EXERCISE_MET`,
otherwise `round(met * 3.5 * weight_kg / 200 * duration_min, 2)`. -/
def calculate_calories_burned (weight_kg : ℚ) (exercise : String)
    (duration_min : ℚ) : ℚ :=
  calcBurnedTbl EXERCISE_MET weight_kg exercise duration_min

/-- The state-passing form of `calculate_calories_burned`: the Python
function reads the module-level dict `EXERCISE_MET` and contains no
assignment, so the embedded state (the table) is threaded through
unchanged and the result is a pure function of the read state. -/
def calcBurnedSt (tbl : List (String × ℚ)) (weight_kg : ℚ) (exercise : String)
    (duration_min : ℚ) : ℚ × List (String × ℚ) :=
  (calcBurnedTbl tbl weight_kg exercise duration_min, tbl)

/-- One entry of a `foodNutrients` array: `nutrientName` and `value`. -/
structure FoodNutrient where
  nutrientName : String
  value : ℚ
deriving DecidableEq, Repr

/-- One element of the USDA `foods` array as the app uses it. -/
structure UsdaFood where
  description : String
  foodNutrients : List FoodNutrient
deriving DecidableEq, Repr

/-- A parsed JSON body of the USDA search response: the `foods` key may
be absent (`none`). -/
structure UsdaBody where
  foods : Option (List UsdaFood)
deriving DecidableEq, Repr

/-- The HTTP response of the USDA call: a status code and a body, where
`body = none` models an unparseable body (`response.json()` raises). -/
structure UsdaResponse where
  status_code : ℕ
  body : Option UsdaBody
deriving DecidableEq, Repr

/-- `search_food_usda` from the source, over the external response.
`Except.error` marks an exception escaping the function: the only raise
site is `response.json()` on an unparseable body of a 200 response. -/
def search_food_usda (resp : UsdaResponse) : Except String (List UsdaFood) :=
  if resp.status_code == 200 then
    match resp.body with
    | none => Except.error "JSONDecodeError"
    | some data =>
      match data.foods with
      | some fs => if fs.length > 0 then Except.ok fs else Except.ok []
      | none => Except.ok []
  else Except.ok []

/-- `get_ai_insight` from the source.  The whole `try` body — the
completion call plus `response.choices[0].message.content` — is embedded
as one fallible step `body`; `Except.error e` is an exception with
message `e`, caught by the `except` clause and formatted by the f-string
as "AI API Error: " followed by the message. -/
def get_ai_insight (body : Except String String) : String :=
  match body with
  | Except.error e => "AI API Error: " ++ e
  | Except.ok content => content

/-- A Python dict over `String` keys as an insertion-ordered association
list: the assignment `d[k] = v` overwrites the value at the (unique)
occurrence of `k`, keeping its position, and appends a fresh key at the
end.  Keys of a Python dict are unique, so overwriting the first
occurrence is exact. -/
def dictInsert : List (String × ℚ) → String → ℚ → List (String × ℚ)
  | [], k, v => [(k, v)]
  | p :: d, k, v =>
    if p.1 == k then (k, v) :: d else p :: dictInsert d k v

/-- Python dict lookup `d[k]` as an option. -/
def dictFind (d : List (String × ℚ)) (k : String) : Option ℚ :=
  (d.find? (fun p => p.1 == k)).map Prod.snd

/-- The nutrient extraction of the Food Insights tab: the dict
comprehension over `food_data["foodNutrients"][:5]` mapping each entry's
`nutrientName` to its `value`. -/
def extract_nutrients (food_data : UsdaFood) : List (String × ℚ) :=
  (food_data.foodNutrients.take 5).foldl
    (fun d n => dictInsert d n.nutrientName n.value) []

/-- The value at the LAST occurrence of nutrient name `k` in a nutrient
list, or `none` when `k` does not occur.  Used to state the overwrite
semantics of the dict comprehension. -/
def lastVal (k : String) : List FoodNutrient → Option ℚ
  | [] => none
  | n :: t =>
    match lastVal k t with
    | some v => some v
    | none => if n.nutrientName == k then some n.value else none

/-- The wide nutrition table handed to `plot_nutrition`: a `Food` column,
the nutrient column names, and per-row cells aligned with the nutrient
columns.  A cell is `Option ℚ` since a pandas cell may be null. -/
structure WideTable where
  foods : List String
  nutrients : List String
  cells : List (List (Option ℚ))
deriving Repr

/-- `nutrition_df.melt(id_vars="Food", var_name="Nutrient",
value_name="Amount")`: one output row per (nutrient column, food row)
pair, column-major as pandas produces it. -/
def melt (t : WideTable) : List (String × String × Option ℚ) :=
  ((List.range t.nutrients.length).map (fun j =>
    (t.foods.zip (t.cells.map (fun r => r.getD j none))).map
      (fun p => (p.1, t.nutrients.getD j "", p.2)))).flatten

/-- The display state of the Food Insights tab. -/
inductive FoodView where
  | idle
  | results (n : ℕ)
  | noResults
deriving DecidableEq, Repr

/-- The Food Insights tab flow around the query input: `if food_query:`
guards the call to `search_food_usda`, so an empty string (falsy in
Python) short-circuits everything.  The first component records the
queries sent to the external service, in order. -/
def food_tab (query : String) (search : String → List UsdaFood) :
    List String × FoodView :=
  if query.length ≠ 0 then
    let foods := search query
    if foods.length ≠ 0 then ([query], FoodView.results foods.length)
    else ([query], FoodView.noResults)
  else ([], FoodView.idle)

/-- The single insertion step of the nutrient dict comprehension. -/
def nutrStep (d : List (String × ℚ)) (n : FoodNutrient) : List (String × ℚ) :=
  dictInsert d n.nutrientName n.value

/-- A sample selected food record with a single nutrient entry. -/
def sampleFd : UsdaFood := ⟨"Apple", [⟨"Protein", 1⟩]⟩

/-- A sample food record whose first five nutrient entries repeat a
nutrient name. -/
def dupFd : UsdaFood :=
  ⟨"x", [⟨"Protein", 1⟩, ⟨"Protein", 2⟩, ⟨"Fat", 3⟩]⟩

/-- A sample 2-food × 2-nutrient wide nutrition table. -/
def sampleTable : WideTable :=
  ⟨["A", "B"], ["Protein", "Fat"], [[some 1, some 2], [some 3, some 4]]⟩

/-- A sample external search returning no results. -/
def sampleSearch : String → List UsdaFood := fun _ => []

/-! ### Rounding lemmas -/

/-- On an exact integer, banker's rounding is the identity. -/
lemma pyRoundInt_intCast (n : ℤ) : pyRoundInt (n : ℚ) = n := by
  unfold pyRoundInt
  rw [Int.floor_intCast]
  norm_num

/-- When `q * 100` is an exact integer `n`, `round(q, 2) = n / 100`. -/
lemma pyRound2_eq_of_mul_hundred (q : ℚ) (n : ℤ) (h : q * 100 = (n : ℚ)) :
    pyRound2 q = (n : ℚ) / 100 := by
  unfold pyRound2
  rw [h, pyRoundInt_intCast]

/-! ### Dictionary lemmas -/

lemma extract_nutrients_eq_foldl (fd : UsdaFood) :
    extract_nutrients fd = (fd.foodNutrients.take 5).foldl nutrStep [] := rfl

lemma length_dictInsert_le (d : List (String × ℚ)) (k : String) (v : ℚ) :
    (dictInsert d k v).length ≤ d.length + 1 := by
  induction d with
  | nil => simp [dictInsert]
  | cons p d ih =>
    simp only [dictInsert]
    split
    · simp
    · simpa using Nat.succ_le_succ ih

lemma length_dictInsert_of_mem (d : List (String × ℚ)) (k : String) (v : ℚ)
    (h : k ∈ d.map Prod.fst) : (dictInsert d k v).length = d.length := by
  induction d with
  | nil => simp at h
  | cons p d ih =>
    simp only [dictInsert]
    split
    · simp
    · rename_i hpk
      simp only [List.map_cons, List.mem_cons] at h
      rcases h with h | h
      · exact absurd (by simp [h]) hpk
      · simpa using ih h

lemma mem_keys_dictInsert_self (d : List (String × ℚ)) (k : String) (v : ℚ) :
    k ∈ (dictInsert d k v).map Prod.fst := by
  induction d with
  | nil => simp [dictInsert]
  | cons p d ih =>
    simp only [dictInsert]
    split
    · simp
    · simpa using Or.inr ih

lemma mem_keys_dictInsert_of_mem (d : List (String × ℚ)) (k a : String) (v : ℚ)
    (h : a ∈ d.map Prod.fst) : a ∈ (dictInsert d k v).map Prod.fst := by
  induction d with
  | nil => simp at h
  | cons p d ih =>
    simp only [dictInsert]
    split
    · rename_i hpk
      simp only [List.map_cons, List.mem_cons] at h ⊢
      rcases h with h | h
      · exact Or.inl (by rw [h]; exact eq_of_beq hpk)
      · exact Or.inr h
    · simp only [List.map_cons, List.mem_cons] at h ⊢
      rcases h with h | h
      · exact Or.inl h
      · exact Or.inr (ih h)

lemma mem_keys_foldl_of_mem (l : List FoodNutrient) (d : List (String × ℚ))
    (a : String) (h : a ∈ d.map Prod.fst) :
    a ∈ (l.foldl nutrStep d).map Prod.fst := by
  induction l generalizing d with
  | nil => simpa using h
  | cons n t ih =>
    exact ih (nutrStep d n) (mem_keys_dictInsert_of_mem d n.nutrientName a n.value h)

lemma length_foldl_le (l : List FoodNutrient) (d : List (String × ℚ)) :
    (l.foldl nutrStep d).length ≤ d.length + l.length := by
  induction l generalizing d with
  | nil => simp
  | cons n t ih =>
    have h1 := ih (nutrStep d n)
    have h2 := length_dictInsert_le d n.nutrientName n.value
    simp only [List.foldl_cons, List.length_cons]
    simp only [nutrStep] at h1 ⊢
    omega

lemma length_foldl_lt_of_hit (l : List FoodNutrient) (d : List (String × ℚ))
    (h : ∃ n ∈ l, n.nutrientName ∈ d.map Prod.fst) :
    (l.foldl nutrStep d).length < d.length + l.length := by
  induction l generalizing d with
  | nil => simp at h
  | cons n t ih =>
    rcases h with ⟨m, hm, hmem⟩
    simp only [List.mem_cons] at hm
    simp only [List.foldl_cons, List.length_cons]
    rcases hm with rfl | hm
    · have h1 := length_foldl_le t (nutrStep d m)
      have h2 := length_dictInsert_of_mem d m.nutrientName m.value hmem
      simp only [nutrStep] at h1 h2 ⊢
      omega
    · have h1 := ih (nutrStep d n)
        ⟨m, hm, mem_keys_dictInsert_of_mem d n.nutrientName m.nutrientName n.value hmem⟩
      have h2 := length_dictInsert_le d n.nutrientName n.value
      simp only [nutrStep] at h1 h2 ⊢
      omega

lemma length_foldl_lt_of_dup (l : List FoodNutrient) (d : List (String × ℚ))
    (h : ¬ (l.map (fun n => n.nutrientName)).Nodup) :
    (l.foldl nutrStep d).length < d.length + l.length := by
  induction l generalizing d with
  | nil => simp at h
  | cons n t ih =>
    simp only [List.map_cons, List.nodup_cons, not_and_or, not_not] at h
    simp only [List.foldl_cons, List.length_cons]
    rcases h with h | h
    · rcases List.mem_map.mp h with ⟨m, hm, hname⟩
      have hself := mem_keys_dictInsert_self d n.nutrientName n.value
      have h1 := length_foldl_lt_of_hit t (nutrStep d n)
        ⟨m, hm, by rw [hname]; exact hself⟩
      have h2 := length_dictInsert_le d n.nutrientName n.value
      simp only [nutrStep] at h1 h2 ⊢
      omega
    · have h1 := ih (nutrStep d n) h
      have h2 := length_dictInsert_le d n.nutrientName n.value
      simp only [nutrStep] at h1 h2 ⊢
      omega

lemma dictFind_dictInsert (d : List (String × ℚ)) (k v k') :
    dictFind (dictInsert d k v) k' =
      if k' = k then some v else dictFind d k' := by
  induction d with
  | nil =>
    simp only [dictInsert, dictFind, List.find?]
    by_cases h : k' = k
    · subst h; simp
    · simp [beq_eq_false_iff_ne.mpr (fun hkk => h hkk.symm), h]
  | cons p d ih =>
    simp only [dictInsert]
    split
    · rename_i hpk
      have hpk' : p.1 = k := eq_of_beq hpk
      by_cases h : k' = k
      · subst h; simp [dictFind, List.find?]
      · simp only [dictFind, List.find?, List.map_cons]
        rw [show (k == k') = false from
          beq_eq_false_iff_ne.mpr (fun hkk => h hkk.symm)]
        rw [show (p.1 == k') = false from
          beq_eq_false_iff_ne.mpr (by rw [hpk']; exact fun hkk => h hkk.symm)]
        simp [h]
    · rename_i hpk
      by_cases hp : p.1 = k'
      · have hne : k' ≠ k := fun hh => hpk (beq_iff_eq.mpr (hp.trans hh))
        simp [dictFind, List.find?, hp, hne]
      · simp only [dictFind, List.find?]
        rw [show (p.1 == k') = false from beq_eq_false_iff_ne.mpr hp]
        exact ih

lemma dictFind_foldl (l : List FoodNutrient) (d : List (String × ℚ)) (k : String) :
    dictFind (l.foldl nutrStep d) k =
      match lastVal k l with
      | some v => some v
      | none => dictFind d k := by
  induction l generalizing d with
  | nil => simp [lastVal]
  | cons n t ih =>
    simp only [List.foldl_cons, lastVal]
    rw [ih (nutrStep d n)]
    cases hlv : lastVal k t with
    | some v => simp
    | none =>
      simp only []
      rw [show nutrStep d n = dictInsert d n.nutrientName n.value from rfl,
        dictFind_dictInsert]
      by_cases h : n.nutrientName = k
      · rw [if_pos h.symm, if_pos (by exact beq_iff_eq.mpr h)]
      · rw [if_neg (fun hh => h hh.symm), if_neg (by simpa using h)]

lemma mem_dictInsert (d : List (String × ℚ)) (k : String) (v : ℚ)
    (p : String × ℚ) (h : p ∈ dictInsert d k v) : p ∈ d ∨ p = (k, v) := by
  induction d with
  | nil => simpa [dictInsert] using h
  | cons q d ih =>
    simp only [dictInsert] at h
    split at h
    · rcases List.mem_cons.mp h with h | h
      · exact Or.inr h
      · exact Or.inl (List.mem_cons_of_mem q h)
    · rcases List.mem_cons.mp h with h | h
      · exact Or.inl (h ▸ List.mem_cons_self q d)
      · rcases ih h with h | h
        · exact Or.inl (List.mem_cons_of_mem q h)
        · exact Or.inr h

lemma mem_foldl (l : List FoodNutrient) (d : List (String × ℚ))
    (p : String × ℚ) (h : p ∈ l.foldl nutrStep d) :
    p ∈ d ∨ ∃ n ∈ l, p = (n.nutrientName, n.value) := by
  induction l generalizing d with
  | nil => exact Or.inl (by simpa using h)
  | cons n t ih =>
    simp only [List.foldl_cons] at h
    rcases ih (nutrStep d n) h with h | h
    · rcases mem_dictInsert d n.nutrientName n.value p h with h | h
      · exact Or.inl h
      · exact Or.inr ⟨n, List.mem_cons_self n t, h⟩
    · rcases h with ⟨m, hm, hp⟩
      exact Or.inr ⟨m, List.mem_cons_of_mem n hm, hp⟩

/-! ### Melt lemmas -/

lemma length_melt (t : WideTable) (h1 : t.cells.length = t.foods.length) :
    (melt t).length = t.foods.length * t.nutrients.length := by
  simp only [melt, List.length_flatten, List.map_map, Function.comp]
  have hrep : ((List.range t.nutrients.length).map (fun j =>
      ((t.foods.zip (t.cells.map (fun r => r.getD j none))).map
        (fun p => (p.1, t.nutrients.getD j "", p.2))).length))
      = List.replicate t.nutrients.length t.foods.length := by
    apply List.eq_replicate_iff.mpr
    refine ⟨by simp, ?_⟩
    intro b hb
    rcases List.mem_map.mp hb with ⟨j, hj, rfl⟩
    simp [List.length_zip, h1]
  rw [show ((List.range t.nutrients.length).map (List.length ∘ fun j =>
      ((t.foods.zip (t.cells.map (fun r => r.getD j none))).map
        (fun p => (p.1, t.nutrients.getD j "", p.2))))) =
      ((List.range t.nutrients.length).map (fun j =>
      ((t.foods.zip (t.cells.map (fun r => r.getD j none))).map
        (fun p => (p.1, t.nutrients.getD j "", p.2))).length)) from rfl]
  rw [hrep, List.sum_replicate, smul_eq_mul, mul_comm]

lemma mem_melt_fields (t : WideTable)
    (h2 : ∀ r ∈ t.cells, r.length = t.nutrients.length)
    (h3 : ∀ r ∈ t.cells, ∀ c ∈ r, c.isSome = true)
    (x : String × String × Option ℚ) (hx : x ∈ melt t) :
    x.1 ∈ t.foods ∧ x.2.1 ∈ t.nutrients ∧ x.2.2.isSome = true := by
  simp only [melt, List.mem_flatten, List.mem_map] at hx
  rcases hx with ⟨L, ⟨j, hj, rfl⟩, hxL⟩
  rcases List.mem_map.mp hxL with ⟨p, hp, rfl⟩
  have hj' : j < t.nutrients.length := List.mem_range.mp hj
  have hpf := List.of_mem_zip hp
  refine ⟨hpf.1, ?_, ?_⟩
  · rw [show (p.1, t.nutrients.getD j "", p.2).2.1 = t.nutrients.getD j "" from rfl]
    rw [List.getD_eq_getElem t.nutrients "" hj']
    exact List.getElem_mem hj'
  · rcases List.mem_map.mp hpf.2 with ⟨r, hr, hpr⟩
    have hjr : j < r.length := by rw [h2 r hr]; exact hj'
    have hcell : p.2 = r[j] := by
      rw [← hpr, List.getD_eq_getElem r none hjr]
    rw [show (p.1, t.nutrients.getD j "", p.2).2.2 = p.2 from rfl, hcell]
    exact h3 r hr _ (List.getElem_mem hjr)

/-! ### Claims -/

/-- C1: for every exercise name that is a key of `EXERCISE_MET` with MET
value `m`, every weight in [30,200] and duration in [5,300], the calorie
estimator returns the MET formula `m * 3.5 * w / 200 * d` rounded to two
decimal places (banker's rounding, Python's deterministic `round`). -/
theorem claim_C1_met_formula (w d : ℚ) (e : String) (m : ℚ)
    (hm : metLookup e = some m)
    (_hw1 : 30 ≤ w) (_hw2 : w ≤ 200) (_hd1 : 5 ≤ d) (_hd2 : d ≤ 300) :
    calculate_calories_burned w e d = pyRound2 (m * (7/2) * w / 200 * d) := by
  unfold calculate_calories_burned calcBurnedTbl
  unfold metLookup at hm
  rw [hm]

/-- Witness for C1 at weight 100, exercise "Swimming" (MET 6),
duration 100. -/
theorem claim_C1_met_formula_witness :
    metLookup "Swimming" = some 6 ∧ (30:ℚ) ≤ 100 ∧ (100:ℚ) ≤ 200 ∧
    (5:ℚ) ≤ 100 ∧ (100:ℚ) ≤ 300 ∧
    calculate_calories_burned 100 "Swimming" 100 =
      pyRound2 (6 * (7/2) * 100 / 200 * 100) := by
  have hm : metLookup "Swimming" = some 6 := rfl
  exact ⟨hm, by norm_num, by norm_num, by norm_num, by norm_num,
    claim_C1_met_formula 100 100 "Swimming" 6 hm (by norm_num) (by norm_num)
      (by norm_num) (by norm_num)⟩

/-- C2: for every exercise name that is not a key of `EXERCISE_MET`, the
calorie estimator returns 0 for every weight and duration (a defined
fallback, not an error). -/
theorem claim_C2_unknown_exercise (w d : ℚ) (e : String)
    (h : metLookup e = none) : calculate_calories_burned w e d = 0 := by
  unfold calculate_calories_burned calcBurnedTbl
  unfold metLookup at h
  rw [h]

/-- Witness for C2 at the absent key "Unknown Sport". -/
theorem claim_C2_unknown_exercise_witness :
    metLookup "Unknown Sport" = none ∧
    calculate_calories_burned 70 "Unknown Sport" 30 = 0 := by
  have hm : metLookup "Unknown Sport" = none := rfl
  exact ⟨hm, claim_C2_unknown_exercise 70 30 "Unknown Sport" hm⟩

/-- Counterexample to C3 as stated: on a 200 response whose body is
unparseable, `search_food_usda` does NOT return the empty sequence — the
`response.json()` call raises and the exception escapes the function. -/
theorem claim_C3_counterexample :
    search_food_usda ⟨200, none⟩ = Except.error "JSONDecodeError" ∧
    search_food_usda ⟨200, none⟩ ≠ Except.ok [] := by
  constructor
  · rfl
  · intro h
    simp [search_food_usda] at h

/-- C3 (amended): the food lookup returns the `foods` array for a 200
response with a parseable body containing a non-empty `foods` array; it
returns the empty sequence for any non-200 response, for a parseable body
without a `foods` key, and for an empty `foods` array; on a 200 response
with an unparseable body it raises (the JSON decode error propagates). -/
theorem claim_C3_lookup_behavior (resp : UsdaResponse) :
    (resp.status_code = 200 → ∀ b fs, resp.body = some b → b.foods = some fs →
      fs ≠ [] → search_food_usda resp = Except.ok fs) ∧
    (resp.status_code ≠ 200 → search_food_usda resp = Except.ok []) ∧
    (resp.status_code = 200 → ∀ b, resp.body = some b → b.foods = none →
      search_food_usda resp = Except.ok []) ∧
    (resp.status_code = 200 → ∀ b, resp.body = some b → b.foods = some [] →
      search_food_usda resp = Except.ok []) ∧
    (resp.status_code = 200 → resp.body = none →
      search_food_usda resp = Except.error "JSONDecodeError") := by
  obtain ⟨sc, body⟩ := resp
  refine ⟨?_, ?_, ?_, ?_, ?_⟩
  · intro h200 b fs hb hf hne
    simp only at h200 hb
    subst h200 hb
    have hlen : fs.length > 0 := List.length_pos.mpr hne
    simp [search_food_usda, hf, hlen]
  · intro hne
    simp only at hne
    simp [search_food_usda, hne]
  · intro h200 b hb hf
    simp only at h200 hb
    subst h200 hb
    simp [search_food_usda, hf]
  · intro h200 b hb hf
    simp only at h200 hb
    subst h200 hb
    simp [search_food_usda, hf]
  · intro h200 hb
    simp only at h200 hb
    subst h200 hb
    simp [search_food_usda]

/-- Witness for C3 (amended): a 200 response with one food is returned
as-is. -/
theorem claim_C3_lookup_behavior_witness :
    search_food_usda ⟨200, some ⟨some [⟨"Banana", []⟩]⟩⟩ =
      Except.ok [⟨"Banana", []⟩] :=
  (claim_C3_lookup_behavior ⟨200, some ⟨some [⟨"Banana", []⟩]⟩⟩).1 rfl
    ⟨some [⟨"Banana", []⟩]⟩ [⟨"Banana", []⟩] rfl rfl (by simp)

/-- C4: the Narrative Insight Generator never raises past its boundary:
every failure of the underlying completion call yields a string beginning
with "AI API Error:", and a successful call yields the generated text. -/
theorem claim_C4_ai_boundary :
    (∀ e : String, ∃ rest, get_ai_insight (Except.error e) =
      "AI API Error:" ++ rest) ∧
    (∀ s : String, get_ai_insight (Except.ok s) = s) := by
  constructor
  · intro e
    refine ⟨" " ++ e, ?_⟩
    show "AI API Error: " ++ e = "AI API Error:" ++ (" " ++ e)
    have hlit : "AI API Error:" ++ " " = "AI API Error: " := rfl
    rw [← String.append_assoc, hlit]
  · intro s
    rfl

/-- C5: nutrient extraction is determined by the first five nutrient
entries in their given order, never yields more than five entries, and
every extracted pair is the name/value of one of the first five
entries. -/
theorem claim_C5_extract_bounded (fd : UsdaFood) :
    (extract_nutrients fd).length ≤ 5 ∧
    extract_nutrients fd =
      extract_nutrients ⟨fd.description, fd.foodNutrients.take 5⟩ ∧
    ∀ p ∈ extract_nutrients fd, ∃ n ∈ fd.foodNutrients.take 5,
      p = (n.nutrientName, n.value) := by
  refine ⟨?_, ?_, ?_⟩
  · have h := length_foldl_le (fd.foodNutrients.take 5) []
    have h2 : (fd.foodNutrients.take 5).length ≤ 5 :=
      fd.foodNutrients.length_take_le 5
    rw [extract_nutrients_eq_foldl]
    simp only [List.length_nil] at h
    omega
  · simp [extract_nutrients, List.take_take]
  · intro p hp
    rw [extract_nutrients_eq_foldl] at hp
    rcases mem_foldl _ _ _ hp with h | ⟨n, hn, rfl⟩
    · simp at h
    · exact ⟨n, hn, rfl⟩

/-- Witness for C5 on a one-nutrient record. -/
theorem claim_C5_extract_bounded_witness :
    ("Protein", (1:ℚ)) ∈ extract_nutrients sampleFd ∧
    (extract_nutrients sampleFd).length ≤ 5 ∧
    ∃ n ∈ sampleFd.foodNutrients.take 5,
      ("Protein", (1:ℚ)) = (n.nutrientName, n.value) := by
  have hmem : ("Protein", (1:ℚ)) ∈ extract_nutrients sampleFd := by
    rw [show extract_nutrients sampleFd = [("Protein", (1:ℚ))] from rfl]
    exact List.mem_singleton.mpr rfl
  exact ⟨hmem, (claim_C5_extract_bounded sampleFd).1,
    (claim_C5_extract_bounded sampleFd).2.2 _ hmem⟩

/-- C6: at weight 70 kg, exercise "Running (6 mph)", duration 30 min, the
calorie estimator returns exactly 360.15 (= 36015/100). -/
theorem claim_C6_concrete_running :
    calculate_calories_burned 70 "Running (6 mph)" 30 = 36015/100 := by
  have h : calculate_calories_burned 70 "Running (6 mph)" 30
      = pyRound2 (98/10 * (7/2) * 70 / 200 * 30) := by
    simp [calculate_calories_burned, calcBurnedTbl, EXERCISE_MET]
  rw [h, pyRound2_eq_of_mul_hundred (98/10 * (7/2) * 70 / 200 * 30) 36015
    (by norm_num)]
  norm_num

/-- C7: melting an n-food × m-nutrient wide table whose dimensions agree
and whose cells are all present produces exactly n×m rows, each row
carrying a food of the table, a nutrient column name of the table, and a
non-null amount. -/
theorem claim_C7_melt_shape (t : WideTable)
    (h1 : t.cells.length = t.foods.length)
    (h2 : ∀ r ∈ t.cells, r.length = t.nutrients.length)
    (h3 : ∀ r ∈ t.cells, ∀ c ∈ r, c.isSome = true) :
    (melt t).length = t.foods.length * t.nutrients.length ∧
    ∀ x ∈ melt t, x.1 ∈ t.foods ∧ x.2.1 ∈ t.nutrients ∧ x.2.2.isSome = true :=
  ⟨length_melt t h1, fun x hx => mem_melt_fields t h2 h3 x hx⟩

/-- Witness for C7 on a 2×2 table. -/
theorem claim_C7_melt_shape_witness :
    sampleTable.cells.length = sampleTable.foods.length ∧
    (melt sampleTable).length =
      sampleTable.foods.length * sampleTable.nutrients.length := by
  refine ⟨rfl, ?_⟩
  exact (claim_C7_melt_shape sampleTable rfl (by decide) (by decide)).1

/-- C8: the calorie estimator is pure and deterministic: in the
state-passing embedding the table state is returned unchanged, a second
call on the post state with the same inputs returns the same value, and
`calculate_calories_burned` is the value of the read-only computation on
`EXERCISE_MET`. -/
theorem claim_C8_pure (tbl : List (String × ℚ)) (w d : ℚ) (e : String) :
    (calcBurnedSt tbl w e d).2 = tbl ∧
    (calcBurnedSt ((calcBurnedSt tbl w e d).2) w e d).1 =
      (calcBurnedSt tbl w e d).1 ∧
    calculate_calories_burned w e d = (calcBurnedSt EXERCISE_MET w e d).1 :=
  ⟨rfl, rfl, rfl⟩

/-- C9: with an empty food query no external call is made and the tab is
in its no-op state; every query the food lookup is invoked with is
non-empty. -/
theorem claim_C9_empty_query (search : String → List UsdaFood) :
    (food_tab "" search).1 = [] ∧
    (food_tab "" search).2 = FoodView.idle ∧
    ∀ (q c : String), c ∈ (food_tab q search).1 → c ≠ "" := by
  refine ⟨rfl, rfl, ?_⟩
  intro q c hc
  by_cases hq : q.length ≠ 0
  · have hcq : c = q := by
      simp only [food_tab, if_pos hq] at hc
      split at hc <;> simpa using hc
    subst hcq
    intro h0
    exact hq (by rw [h0]; rfl)
  · simp only [food_tab, if_neg hq] at hc
    simp at hc

/-- Witness for C9: a non-empty query is sent to the lookup and is indeed
non-empty. -/
theorem claim_C9_empty_query_witness :
    "apple" ∈ (food_tab "apple" sampleSearch).1 ∧ "apple" ≠ "" := by
  have hmem : "apple" ∈ (food_tab "apple" sampleSearch).1 := by
    rw [show (food_tab "apple" sampleSearch).1 = ["apple"] from rfl]
    exact List.mem_singleton.mpr rfl
  exact ⟨hmem, (claim_C9_empty_query sampleSearch).2.2 "apple" "apple" hmem⟩

/-- C10: when the first five nutrient entries repeat a nutrient name, the
extracted mapping has strictly fewer than five entries, and lookup of any
name yields the value of its last occurrence among the first five
entries. -/
theorem claim_C10_duplicate_names (fd : UsdaFood)
    (h : ¬ ((fd.foodNutrients.take 5).map (fun n => n.nutrientName)).Nodup) :
    (extract_nutrients fd).length < 5 ∧
    ∀ k, dictFind (extract_nutrients fd) k =
      lastVal k (fd.foodNutrients.take 5) := by
  constructor
  · have hlt := length_foldl_lt_of_dup (fd.foodNutrients.take 5) [] h
    have hle : (fd.foodNutrients.take 5).length ≤ 5 :=
      fd.foodNutrients.length_take_le 5
    rw [extract_nutrients_eq_foldl]
    simp only [List.length_nil] at hlt
    omega
  · intro k
    rw [extract_nutrients_eq_foldl, dictFind_foldl]
    cases hlv : lastVal k (fd.foodNutrients.take 5) <;> simp [dictFind]

/-- Witness for C10 on a record repeating "Protein" in its first five
entries: two entries come out, and "Protein" maps to the later value. -/
theorem claim_C10_duplicate_names_witness :
    (extract_nutrients dupFd).length < 5 ∧
    dictFind (extract_nutrients dupFd) "Protein" =
      lastVal "Protein" (dupFd.foodNutrients.take 5) := by
  have h := claim_C10_duplicate_names dupFd (by decide)
  exact ⟨h.1, h.2 "Protein"⟩

end NutriNova
